import Mathlib

/-!
Verification development for the TrustBuild governance guardrail core.

The development shallowly embeds the policy knowledge base
(`policy_kb.py`) and the audit-and-correction pipeline
(`governance_agent.py`).  Manifests are Python dictionaries in the
source; here they are records whose optional entries are `Option`
fields, and every `dict.get(key, default)` read in the source becomes a
`getD` read of the corresponding field.  A missing `networking` or
`security_config` block behaves exactly as a block with every flag
false, which matches the all-false default records used below.
-/

namespace TrustBuild

/-- Modelled from the spec: severity enum (critical | warning | info) of the
schemas module, which is not part of the audited sources.  Constructing a
severity from an unknown string raises, which is modelled by
`severityOfString` returning an error. -/
inductive SeverityLevel where
  | critical
  | warning
  | info
deriving DecidableEq, Repr

/-- Modelled from the spec: compliance-framework enum of the schemas module
(the source comment lists HIPAA, SOC2, GDPR, IBM_BASELINE). -/
inductive ComplianceFramework where
  | HIPAA
  | SOC2
  | GDPR
  | IBM_BASELINE
deriving DecidableEq, Repr

/-- Modelled from the spec: stage status enum (PASSED | CORRECTED | FAILED). -/
inductive StageStatus where
  | passed
  | correctedStatus
  | failed
deriving DecidableEq, Repr

/-- Networking block of a manifest.  Each flag is read in the source via
`networking.get(flag, False)`, so a missing flag is false. -/
structure Networking where
  vpc_enabled : Bool := false
  subnet_isolation : Bool := false
  private_endpoints : Bool := false
deriving DecidableEq, Repr

/-- Security block of a manifest, flags read via `security.get(flag, False)`. -/
structure SecurityConfig where
  encryption_at_rest : Bool := false
  encryption_in_transit : Bool := false
  audit_logging : Bool := false
  iam_policies : Bool := false
deriving DecidableEq, Repr

/-- One service entry of a manifest.  Every field is read with `svc.get`,
hence optional. -/
structure Service where
  service_name : Option String := none
  service_id : Option String := none
  role : Option String := none
  region : Option String := none
  plan : Option String := none
deriving DecidableEq, Repr

/-- The audited manifest.  `detected_sensitivity` and
`applicable_frameworks` are the audit-context fields attached by the
pipeline before pass 1. -/
structure Manifest where
  project_name : Option String := none
  description : Option String := none
  services : List Service := []
  networking : Networking := {}
  security_config : SecurityConfig := {}
  estimated_monthly_cost : Option Int := none
  diagram_ascii : Option String := none
  detected_sensitivity : Option String := none
  applicable_frameworks : Option (List String) := none
deriving DecidableEq, Repr

/-- Policy check: FAIL if data sensitivity is PHI/PII but VPC is not enabled. -/
def check_vpc_isolation (manifest : Manifest) : Bool :=
  if (manifest.detected_sensitivity.getD "public" == "PHI"
      || manifest.detected_sensitivity.getD "public" == "PII")
     && !manifest.networking.vpc_enabled then false
  else true

/-- Policy check: FAIL if any database service lacks encryption at rest. -/
def check_encryption_at_rest (manifest : Manifest) : Bool :=
  if (manifest.services.any (fun s => s.role == some "database"))
     && !manifest.security_config.encryption_at_rest then false
  else true

/-- Policy check: FAIL if TLS/encryption in transit is not enabled. -/
def check_encryption_in_transit (manifest : Manifest) : Bool :=
  if !manifest.security_config.encryption_in_transit then false
  else true

/-- Policy check: FAIL if PHI data is processed but audit logging is off. -/
def check_audit_logging_for_phi (manifest : Manifest) : Bool :=
  if manifest.detected_sensitivity.getD "public" == "PHI"
     && !manifest.security_config.audit_logging then false
  else true

/-- Policy check: FAIL if PHI/PCI data uses public endpoints. -/
def check_private_endpoints (manifest : Manifest) : Bool :=
  if (manifest.detected_sensitivity.getD "public" == "PHI"
      || manifest.detected_sensitivity.getD "public" == "PCI")
     && !manifest.networking.private_endpoints then false
  else true

/-- Policy check: FAIL if sensitive data services are exposed without VPC.
The source returns False as soon as either flag is missing, else True,
which is the conjunction of the two flags under the sensitivity guard. -/
def check_no_public_api_for_sensitive_data (manifest : Manifest) : Bool :=
  if manifest.detected_sensitivity.getD "public" == "PHI"
     || manifest.detected_sensitivity.getD "public" == "PII"
     || manifest.detected_sensitivity.getD "public" == "PCI" then
    manifest.networking.vpc_enabled && manifest.networking.subnet_isolation
  else true

/-- Policy check: FAIL if IAM policies are missing for enterprise workloads. -/
def check_iam_policies_present (manifest : Manifest) : Bool :=
  if (manifest.detected_sensitivity.getD "public" == "PHI"
      || manifest.detected_sensitivity.getD "public" == "PCI")
     && !manifest.security_config.iam_policies then false
  else true

/-- Acceptable EU regions of the region-compliance policy. -/
def euRegions : List String := ["eu-gb", "eu-de", "eu-fr"]

/-- Policy check: FAIL if GDPR-applicable data is stored outside EU regions.
The source loop returns False on the first database service outside the EU
region list, else True; this equals the `all` form used here. -/
def check_region_compliance (manifest : Manifest) : Bool :=
  if (manifest.applicable_frameworks.getD []).contains "GDPR" then
    manifest.services.all (fun svc =>
      !(svc.role == some "database") || euRegions.contains (svc.region.getD ""))
  else true

/-- Correction: enable VPC isolation, subnet isolation and private endpoints.
The `setdefault` of the source only matters for aliasing, which the value
semantics of records makes invisible; the resulting value is this update. -/
def correct_vpc_isolation (manifest : Manifest) : Manifest :=
  { manifest with networking :=
      { manifest.networking with
          vpc_enabled := true
          subnet_isolation := true
          private_endpoints := true } }

/-- Correction: enable encryption at rest; under PHI sensitivity, also
upgrade every database service plan to dedicated.  The source writes the
security flag first and then conditionally rewrites the service plans of
the same manifest; the resulting value is the same either way. -/
def correct_encryption_at_rest (manifest : Manifest) : Manifest :=
  if manifest.detected_sensitivity == some "PHI" then
    { manifest with
        security_config :=
          { manifest.security_config with encryption_at_rest := true }
        services :=
          manifest.services.map (fun svc =>
            if svc.role == some "database" then { svc with plan := some "dedicated" }
            else svc) }
  else
    { manifest with security_config :=
        { manifest.security_config with encryption_at_rest := true } }

/-- Correction: enable encryption in transit. -/
def correct_encryption_in_transit (manifest : Manifest) : Manifest :=
  { manifest with security_config :=
      { manifest.security_config with encryption_in_transit := true } }

/-- Correction: enable audit logging. -/
def correct_audit_logging (manifest : Manifest) : Manifest :=
  { manifest with security_config :=
      { manifest.security_config with audit_logging := true } }

/-- Correction: enable private endpoints. -/
def correct_private_endpoints (manifest : Manifest) : Manifest :=
  { manifest with networking :=
      { manifest.networking with private_endpoints := true } }

/-- Correction: enable VPC, subnet isolation and private endpoints to remove
public API exposure. -/
def correct_public_api_exposure (manifest : Manifest) : Manifest :=
  { manifest with networking :=
      { manifest.networking with
          vpc_enabled := true
          subnet_isolation := true
          private_endpoints := true } }

/-- Correction: add IAM policies. -/
def correct_iam_policies (manifest : Manifest) : Manifest :=
  { manifest with security_config :=
      { manifest.security_config with iam_policies := true } }

/-- Correction: move every database service to the eu-gb region. -/
def correct_region_gdpr (manifest : Manifest) : Manifest :=
  { manifest with services :=
      manifest.services.map (fun svc =>
        if svc.role == some "database" then { svc with region := some "eu-gb" }
        else svc) }

/-- A single compliance rule of the knowledge base. -/
structure GovernancePolicy where
  policy_id : String
  policy_name : String
  framework : String
  severity : String
  description : String
  check_fn : Manifest → Bool
  correction_fn : Manifest → Manifest
  correction_description : String

def polHIPAA001 : GovernancePolicy :=
  { policy_id := "POL-HIPAA-001"
    policy_name := "Database VPC Isolation Required"
    framework := "HIPAA"
    severity := "critical"
    description := "All PHI data stores must be isolated within a Virtual Private Cloud with private endpoints only. Public access is strictly prohibited."
    check_fn := check_vpc_isolation
    correction_fn := correct_vpc_isolation
    correction_description := "Enabled VPC isolation and configured private endpoints for all database services." }

def polHIPAA002 : GovernancePolicy :=
  { policy_id := "POL-HIPAA-002"
    policy_name := "Encryption at Rest Required for PHI"
    framework := "HIPAA"
    severity := "critical"
    description := "All Protected Health Information must be encrypted at rest using AES-256 or equivalent. Database plan must be dedicated tier minimum."
    check_fn := check_encryption_at_rest
    correction_fn := correct_encryption_at_rest
    correction_description := "Enabled encryption at rest and upgraded database to dedicated tier for PHI compliance." }

def polHIPAA003 : GovernancePolicy :=
  { policy_id := "POL-HIPAA-003"
    policy_name := "Audit Logging Required for PHI Access"
    framework := "HIPAA"
    severity := "critical"
    description := "All access to PHI must be logged for audit trail compliance. Logging must be enabled at the infrastructure level."
    check_fn := check_audit_logging_for_phi
    correction_fn := correct_audit_logging
    correction_description := "Enabled infrastructure-level audit logging for all PHI access points." }

def polIBM001 : GovernancePolicy :=
  { policy_id := "POL-IBM-001"
    policy_name := "Encryption in Transit Required"
    framework := "IBM_BASELINE"
    severity := "critical"
    description := "All data in transit between services must be encrypted using TLS 1.2 or higher. This is a baseline requirement for all IBM Cloud deployments."
    check_fn := check_encryption_in_transit
    correction_fn := correct_encryption_in_transit
    correction_description := "Enabled TLS encryption for all service-to-service communication." }

def polIBM002 : GovernancePolicy :=
  { policy_id := "POL-IBM-002"
    policy_name := "Private Endpoints for Sensitive Data"
    framework := "IBM_BASELINE"
    severity := "warning"
    description := "Services handling sensitive data (PHI, PCI, PII) should use private endpoints to avoid routing traffic over the public internet."
    check_fn := check_private_endpoints
    correction_fn := correct_private_endpoints
    correction_description := "Configured private endpoints for all sensitive data services." }

def polSEC001 : GovernancePolicy :=
  { policy_id := "POL-SEC-001"
    policy_name := "No Public API Exposure for Sensitive Data"
    framework := "IBM_BASELINE"
    severity := "critical"
    description := "Services processing PHI, PII, or PCI data must not be publicly accessible. VPC and subnet isolation are mandatory."
    check_fn := check_no_public_api_for_sensitive_data
    correction_fn := correct_public_api_exposure
    correction_description := "Enabled VPC isolation and subnet segregation to prevent public API exposure." }

def polSEC002 : GovernancePolicy :=
  { policy_id := "POL-SEC-002"
    policy_name := "IAM Policies Required for Enterprise Workloads"
    framework := "IBM_BASELINE"
    severity := "warning"
    description := "Enterprise workloads handling regulated data must have explicit IAM policies defined for role-based access control."
    check_fn := check_iam_policies_present
    correction_fn := correct_iam_policies
    correction_description := "Added IAM role-based access control policies for all regulated data services." }

def polGDPR001 : GovernancePolicy :=
  { policy_id := "POL-GDPR-001"
    policy_name := "EU Data Residency for GDPR"
    framework := "GDPR"
    severity := "critical"
    description := "Data subject to GDPR must be stored and processed within EU regions only. Acceptable regions: eu-gb, eu-de, eu-fr."
    check_fn := check_region_compliance
    correction_fn := correct_region_gdpr
    correction_description := "Migrated all database services to EU region (eu-gb) for GDPR compliance." }

/-- The policy knowledge base registry, in declaration order. -/
def POLICY_KNOWLEDGE_BASE : List GovernancePolicy :=
  [polHIPAA001, polHIPAA002, polHIPAA003, polIBM001, polIBM002,
   polSEC001, polSEC002, polGDPR001]

/-- Framework selector over an explicit knowledge base.  The source reads
the global registry; the knowledge base is a parameter here so that the
boundary behaviour can also be stated for degenerate registries. -/
def selectPolicies (kb : List GovernancePolicy) (frameworks : List String) :
    List GovernancePolicy :=
  let frameworks_set := "IBM_BASELINE" :: frameworks
  kb.foldl
    (fun relevant policy =>
      if frameworks_set.contains policy.framework then relevant ++ [policy]
      else relevant)
    []

/-- Filter the knowledge base to only the policies relevant to the detected
compliance frameworks, always including IBM_BASELINE policies. -/
def get_policies_for_frameworks (frameworks : List String) : List GovernancePolicy :=
  selectPolicies POLICY_KNOWLEDGE_BASE frameworks

/-- Modelled from the spec: converting a severity string to the severity
enum of the schemas module; an unknown value raises, modelled as an error. -/
def severityOfString (s : String) : Except String SeverityLevel :=
  if s == "critical" then .ok .critical
  else if s == "warning" then .ok .warning
  else if s == "info" then .ok .info
  else .error (s ++ " is not a valid SeverityLevel")

/-- Modelled from the spec: converting a framework string to the framework
enum of the schemas module; an unknown value raises, modelled as an error. -/
def frameworkOfString (s : String) : Except String ComplianceFramework :=
  if s == "HIPAA" then .ok .HIPAA
  else if s == "SOC2" then .ok .SOC2
  else if s == "GDPR" then .ok .GDPR
  else if s == "IBM_BASELINE" then .ok .IBM_BASELINE
  else .error (s ++ " is not a valid ComplianceFramework")

/-- One detected violation, as recorded during audit pass 1. -/
structure PolicyViolation where
  policy_id : String
  policy_name : String
  severity : SeverityLevel
  framework : ComplianceFramework
  description : String
  detected_issue : String
  auto_correction : Option String := none
deriving DecidableEq, Repr

/-- Construct the violation record for a failing policy.  The enum
conversions are the fallible operations of this step. -/
def mkViolation (policy : GovernancePolicy) : Except String PolicyViolation := do
  let sev ← severityOfString policy.severity
  let fw ← frameworkOfString policy.framework
  .ok { policy_id := policy.policy_id
        policy_name := policy.policy_name
        severity := sev
        framework := fw
        description := policy.description
        detected_issue :=
          "Policy " ++ policy.policy_name ++ " failed validation on the proposed architecture."
        auto_correction := none }

/-- Audit pass 1: evaluate each policy in order and collect a violation for
every failing check. -/
def auditPass : List GovernancePolicy → Manifest → Except String (List PolicyViolation)
  | [], _ => .ok []
  | p :: ps, manifest =>
    if p.check_fn manifest then auditPass ps manifest
    else do
      let v ← mkViolation p
      let rest ← auditPass ps manifest
      .ok (v :: rest)

/-- Correction pass: iterate the violations in detection order, look the
policy up by id, apply its correction to the accumulating working manifest
and re-emit the violation enriched with the correction description.  A
violation whose id has no matching policy contributes nothing. -/
def correctionPass (policies : List GovernancePolicy) :
    List PolicyViolation → Manifest → Manifest × List PolicyViolation
  | [], manifest => (manifest, [])
  | v :: vs, manifest =>
    match policies.find? (fun p => p.policy_id == v.policy_id) with
    | some p =>
      let res := correctionPass policies vs (p.correction_fn manifest)
      (res.1, { v with auto_correction := some p.correction_description } :: res.2)
    | none => correctionPass policies vs manifest

/-- Audit pass 2: re-validate the corrected manifest and collect the ids of
the policies that still fail. -/
def reAudit : List GovernancePolicy → Manifest → List String
  | [], _ => []
  | p :: ps, manifest =>
    if p.check_fn manifest then reAudit ps manifest
    else p.policy_id :: reAudit ps manifest

/-- Count the pass-1 violations of a given severity. -/
def countSeverity (violations : List PolicyViolation) (s : SeverityLevel) : Nat :=
  violations.countP (fun v => v.severity == s)

/-- Compliance score of a fully corrected violation set.  The source uses
Python floats; every value involved is a small integer, on which float
arithmetic is exact, so the score is embedded as an integer. -/
def complianceScoreOf (found : List PolicyViolation) : Int :=
  max 60 (100 - 8 * (countSeverity found .critical : Int)
              - 3 * (countSeverity found .warning : Int))

/-- Final status and score: PASSED/100 when nothing was found, CORRECTED
with the severity-based score when every violation was corrected, else
FAILED/40. -/
def finalStatusScore (found correctedVs : List PolicyViolation) : StageStatus × Int :=
  if found.isEmpty then (.passed, 100)
  else if correctedVs.length == found.length then (.correctedStatus, complianceScoreOf found)
  else (.failed, 40)

/-- Typed service record of the final report, with the defaulting reads the
assembler performs on each service entry. -/
structure IBMCloudService where
  service_name : String
  service_id : String
  role : String
  region : String
  plan : String
deriving DecidableEq, Repr

/-- Apply the per-field defaults of the report assembler to one service. -/
def toIBMCloudService (svc : Service) : IBMCloudService :=
  { service_name := svc.service_name.getD "Unknown"
    service_id := svc.service_id.getD "unknown"
    role := svc.role.getD "hosting"
    region := svc.region.getD "us-south"
    plan := svc.plan.getD "standard" }

/-- Typed manifest record of the final report. -/
structure ArchitectureManifest where
  project_name : String
  description : String
  services : List IBMCloudService
  networking : Networking
  security_config : SecurityConfig
  estimated_monthly_cost : Option Int
  diagram_ascii : Option String
deriving DecidableEq, Repr

/-- Build the final manifest record from the corrected working copy, taking
the diagram from the original manifest data. -/
def assembleManifest (manifest_data correctedM : Manifest) : ArchitectureManifest :=
  { project_name := correctedM.project_name.getD "trustbuild-app"
    description := correctedM.description.getD ""
    services := correctedM.services.map toIBMCloudService
    networking := correctedM.networking
    security_config := correctedM.security_config
    estimated_monthly_cost := correctedM.estimated_monthly_cost
    diagram_ascii := manifest_data.diagram_ascii }

/-- Modelled from the spec: provenance metadata naming the model identity;
the client module carrying it is not part of the audited sources. -/
def MODEL_INSTRUCT : String := "watsonx-instruct"

/-- The governance report returned inside the stage result. -/
structure GovernanceReport where
  status : StageStatus
  violations_found : List PolicyViolation
  violations_corrected : List PolicyViolation
  final_compliance_score : Int
  applicable_frameworks : List ComplianceFramework
  corrected_manifest : ArchitectureManifest
  model_used : String
  tokens_used : Nat
deriving DecidableEq, Repr

/-- Modelled from the spec: the stage result envelope of the schemas module.
On the error path the source returns an empty result object, modelled as
`none`. -/
structure StageResult where
  stage_id : Nat
  stage_name : String
  status : StageStatus
  duration_ms : Nat
  result : Option GovernanceReport
  error : Option String := none
deriving DecidableEq, Repr

/-- Output of the upstream intent classifier, read with defaults
public and [IBM_BASELINE]. -/
structure IntentResult where
  detected_sensitivity : Option String := none
  applicable_frameworks : Option (List String) := none
deriving DecidableEq, Repr

/-- Output of the upstream architect stage, read with an empty-manifest
default. -/
structure ArchitectResult where
  manifest : Option Manifest := none
deriving DecidableEq, Repr

/-- Attach the audit-context fields to the manifest before pass 1.  The
source builds a fresh top-level mapping, so this is a record update. -/
def attachContext (manifest_data : Manifest) (sensitivity : String)
    (frameworks : List String) : Manifest :=
  { manifest_data with
      detected_sensitivity := some sensitivity
      applicable_frameworks := some frameworks }

/-- Body of the stage-3 run inside the exception boundary: extract inputs,
select policies, audit, correct, re-validate, score and assemble the
report.  The knowledge base is a parameter so that faults of degenerate
registries can be exhibited; the source reads the global registry. -/
def runBody (kb : List GovernancePolicy) (architect_result : ArchitectResult)
    (intent_result : IntentResult) : Except String (StageStatus × GovernanceReport) := do
  let manifest_data := architect_result.manifest.getD {}
  let sensitivity := intent_result.detected_sensitivity.getD "public"
  let frameworks := intent_result.applicable_frameworks.getD ["IBM_BASELINE"]
  let audit_manifest := attachContext manifest_data sensitivity frameworks
  let policies := selectPolicies kb frameworks
  let violations_found ← auditPass policies audit_manifest
  let (corrected_manifest, violations_corrected) :=
    correctionPass policies violations_found audit_manifest
  let _remaining := reAudit policies corrected_manifest
  let final_manifest := assembleManifest manifest_data corrected_manifest
  let (status, compliance_score) := finalStatusScore violations_found violations_corrected
  .ok (status,
    { status := status
      violations_found := violations_found
      violations_corrected := violations_corrected
      final_compliance_score := compliance_score
      applicable_frameworks := frameworks.filterMap (fun f => (frameworkOfString f).toOption)
      corrected_manifest := final_manifest
      model_used := MODEL_INSTRUCT
      tokens_used := policies.length * 50 })

/-- Outermost boundary of the stage-3 call over an explicit knowledge base:
a successful body becomes a normal stage result, a fault becomes a FAILED
stage result carrying the elapsed duration and the error message.  Elapsed
time is not modelled; the duration is a parameter stamped on either
branch. -/
def runGuardrailWith (kb : List GovernancePolicy) (architect_result : ArchitectResult)
    (intent_result : IntentResult) (duration_ms : Nat) : StageResult :=
  match runBody kb architect_result intent_result with
  | .ok (status, report) =>
    { stage_id := 3
      stage_name := "Governance Guardrail"
      status := status
      duration_ms := duration_ms
      result := some report
      error := none }
  | .error e =>
    { stage_id := 3
      stage_name := "Governance Guardrail"
      status := .failed
      duration_ms := duration_ms
      result := none
      error := some e }

/-- Stage 3 entry point over the real policy knowledge base. -/
def run_governance_guardrail (architect_result : ArchitectResult)
    (intent_result : IntentResult) (duration_ms : Nat) : StageResult :=
  runGuardrailWith POLICY_KNOWLEDGE_BASE architect_result intent_result duration_ms

/-!
Reference-level model of the pipeline.  The source manipulates Python
dictionaries, which are heap objects: a top-level mapping copy (`copy` or
a splat) duplicates the top level only, while the nested networking,
security and per-service dictionaries stay shared.  To state what happens
to the dictionary the caller passed in, manifests are re-embedded with
explicit references into a store, and the correction functions become the
store updates the source performs in place.
-/

/-- Heap of nested manifest objects: networking blocks, security blocks and
service entries, addressed by natural numbers, with a next-free counter
for allocation. -/
structure Store where
  nets : Nat → Networking
  secs : Nat → SecurityConfig
  svcs : Nat → Service
  nextRef : Nat

/-- Overwrite the networking cell at an address. -/
def Store.setNet (σ : Store) (r : Nat) (n : Networking) : Store :=
  { σ with nets := fun x => if x = r then n else σ.nets x }

/-- Overwrite the security cell at an address. -/
def Store.setSec (σ : Store) (r : Nat) (s : SecurityConfig) : Store :=
  { σ with secs := fun x => if x = r then s else σ.secs x }

/-- Overwrite the service cell at an address. -/
def Store.setSvc (σ : Store) (r : Nat) (s : Service) : Store :=
  { σ with svcs := fun x => if x = r then s else σ.svcs x }

/-- Allocate a fresh networking cell. -/
def Store.allocNet (σ : Store) (n : Networking) : Nat × Store :=
  (σ.nextRef,
   { σ with nets := fun x => if x = σ.nextRef then n else σ.nets x
            nextRef := σ.nextRef + 1 })

/-- Allocate a fresh security cell. -/
def Store.allocSec (σ : Store) (s : SecurityConfig) : Nat × Store :=
  (σ.nextRef,
   { σ with secs := fun x => if x = σ.nextRef then s else σ.secs x
            nextRef := σ.nextRef + 1 })

/-- A manifest as a top-level mapping: scalar fields are held directly, the
nested blocks and service entries are references into the store.  A
missing nested block is `none`, matching a missing dictionary key. -/
structure HManifest where
  project_name : Option String := none
  description : Option String := none
  serviceRefs : List Nat := []
  networkingRef : Option Nat := none
  securityRef : Option Nat := none
  estimated_monthly_cost : Option Int := none
  diagram_ascii : Option String := none
  detected_sensitivity : Option String := none
  applicable_frameworks : Option (List String) := none

/-- Read a referenced manifest back as a value, applying the same defaults
as the `dict.get` reads of the checks: a missing block reads as the
all-false block. -/
def derefManifest (m : HManifest) (σ : Store) : Manifest :=
  { project_name := m.project_name
    description := m.description
    services := m.serviceRefs.map σ.svcs
    networking := match m.networkingRef with
                  | some r => σ.nets r
                  | none => {}
    security_config := match m.securityRef with
                       | some r => σ.secs r
                       | none => {}
    estimated_monthly_cost := m.estimated_monthly_cost
    diagram_ascii := m.diagram_ascii
    detected_sensitivity := m.detected_sensitivity
    applicable_frameworks := m.applicable_frameworks }

/-- Reference-level `setdefault` for the networking block: reuse the
existing reference, or allocate a fresh empty block into the working
copy. -/
def hEnsureNetworking (m : HManifest) (σ : Store) : Nat × HManifest × Store :=
  match m.networkingRef with
  | some r => (r, m, σ)
  | none =>
    let (r, σ2) := σ.allocNet {}
    (r, { m with networkingRef := some r }, σ2)

/-- Reference-level `setdefault` for the security block. -/
def hEnsureSecurity (m : HManifest) (σ : Store) : Nat × HManifest × Store :=
  match m.securityRef with
  | some r => (r, m, σ)
  | none =>
    let (r, σ2) := σ.allocSec {}
    (r, { m with securityRef := some r }, σ2)

/-- Reference-level correction: write the three networking flags through
the shared networking reference. -/
def hCorrect_vpc_isolation (m : HManifest) (σ : Store) : HManifest × Store :=
  let (r, m2, σ2) := hEnsureNetworking m σ
  (m2, σ2.setNet r { σ2.nets r with
                       vpc_enabled := true
                       subnet_isolation := true
                       private_endpoints := true })

/-- Reference-level correction: enable encryption at rest in place and,
under PHI, upgrade every database service plan through its reference. -/
def hCorrect_encryption_at_rest (m : HManifest) (σ : Store) : HManifest × Store :=
  let (r, m2, σ2) := hEnsureSecurity m σ
  let σ3 := σ2.setSec r { σ2.secs r with encryption_at_rest := true }
  if m2.detected_sensitivity == some "PHI" then
    (m2, m2.serviceRefs.foldl
      (fun σ ref =>
        if (σ.svcs ref).role == some "database" then
          σ.setSvc ref { σ.svcs ref with plan := some "dedicated" }
        else σ)
      σ3)
  else (m2, σ3)

/-- Reference-level correction: enable encryption in transit in place. -/
def hCorrect_encryption_in_transit (m : HManifest) (σ : Store) : HManifest × Store :=
  let (r, m2, σ2) := hEnsureSecurity m σ
  (m2, σ2.setSec r { σ2.secs r with encryption_in_transit := true })

/-- Reference-level correction: enable audit logging in place. -/
def hCorrect_audit_logging (m : HManifest) (σ : Store) : HManifest × Store :=
  let (r, m2, σ2) := hEnsureSecurity m σ
  (m2, σ2.setSec r { σ2.secs r with audit_logging := true })

/-- Reference-level correction: enable private endpoints in place. -/
def hCorrect_private_endpoints (m : HManifest) (σ : Store) : HManifest × Store :=
  let (r, m2, σ2) := hEnsureNetworking m σ
  (m2, σ2.setNet r { σ2.nets r with private_endpoints := true })

/-- Reference-level correction: remove public API exposure in place. -/
def hCorrect_public_api_exposure (m : HManifest) (σ : Store) : HManifest × Store :=
  let (r, m2, σ2) := hEnsureNetworking m σ
  (m2, σ2.setNet r { σ2.nets r with
                       vpc_enabled := true
                       subnet_isolation := true
                       private_endpoints := true })

/-- Reference-level correction: add IAM policies in place. -/
def hCorrect_iam_policies (m : HManifest) (σ : Store) : HManifest × Store :=
  let (r, m2, σ2) := hEnsureSecurity m σ
  (m2, σ2.setSec r { σ2.secs r with iam_policies := true })

/-- Reference-level correction: move every database service to eu-gb
through its reference. -/
def hCorrect_region_gdpr (m : HManifest) (σ : Store) : HManifest × Store :=
  (m, m.serviceRefs.foldl
    (fun σ ref =>
      if (σ.svcs ref).role == some "database" then
        σ.setSvc ref { σ.svcs ref with region := some "eu-gb" }
      else σ)
    σ)

/-- Reference-level correction function of each registry policy, keyed by
policy id exactly as the registry pairs them. -/
def hCorrectionFor (pid : String) : HManifest → Store → HManifest × Store :=
  if pid == "POL-HIPAA-001" then hCorrect_vpc_isolation
  else if pid == "POL-HIPAA-002" then hCorrect_encryption_at_rest
  else if pid == "POL-HIPAA-003" then hCorrect_audit_logging
  else if pid == "POL-IBM-001" then hCorrect_encryption_in_transit
  else if pid == "POL-IBM-002" then hCorrect_private_endpoints
  else if pid == "POL-SEC-001" then hCorrect_public_api_exposure
  else if pid == "POL-SEC-002" then hCorrect_iam_policies
  else if pid == "POL-GDPR-001" then hCorrect_region_gdpr
  else fun m σ => (m, σ)

/-- Reference-level correction pass over the working copy. -/
def hCorrectionPass (policies : List GovernancePolicy)
    (violations : List PolicyViolation) (m : HManifest) (σ : Store) :
    HManifest × Store :=
  match violations with
  | [] => (m, σ)
  | v :: vs =>
    match policies.find? (fun p => p.policy_id == v.policy_id) with
    | some p =>
      let (m1, σ1) := hCorrectionFor p.policy_id m σ
      hCorrectionPass policies vs m1 σ1
    | none => hCorrectionPass policies vs m σ

/-- Reference-level stage-3 run up to the end of the correction pass, the
only part of the call that writes.  Attaching the context fields and the
shallow `copy` of the working manifest both build a fresh top-level record
sharing the nested references, exactly as the source splat and `copy`
do. -/
def hRunGuardrail (manifest_data : HManifest) (sensitivity : String)
    (frameworks : List String) (σ : Store) : HManifest × Store :=
  let audit_manifest :=
    { manifest_data with
        detected_sensitivity := some sensitivity
        applicable_frameworks := some frameworks }
  let policies := get_policies_for_frameworks frameworks
  match auditPass policies (derefManifest audit_manifest σ) with
  | .error _ => (audit_manifest, σ)
  | .ok found => hCorrectionPass policies found audit_manifest σ

/-!
Ordering used to show that corrections only ever strengthen a manifest:
flags only flip from false to true, service roles are untouched, and a
service region either stays what it was or becomes eu-gb.  Every check of
the registry is monotone along this order, which is what makes the single
correction pass reach a violation-free manifest.
-/

/-- Service ordering: role preserved, region preserved or moved to eu-gb. -/
def ServiceLe (s s' : Service) : Prop :=
  s'.role = s.role ∧ (s'.region = s.region ∨ s'.region = some "eu-gb")

/-- Pointwise service-list ordering. -/
def ServicesLe : List Service → List Service → Prop
  | [], [] => True
  | s :: ss, s' :: ss' => ServiceLe s s' ∧ ServicesLe ss ss'
  | _, _ => False

/-- Manifest ordering along which every correction moves upward and every
check is monotone. -/
structure ManifestLe (m m' : Manifest) : Prop where
  sens : m'.detected_sensitivity = m.detected_sensitivity
  fws : m'.applicable_frameworks = m.applicable_frameworks
  vpc : m.networking.vpc_enabled = true → m'.networking.vpc_enabled = true
  subnet : m.networking.subnet_isolation = true → m'.networking.subnet_isolation = true
  pend : m.networking.private_endpoints = true → m'.networking.private_endpoints = true
  ear : m.security_config.encryption_at_rest = true → m'.security_config.encryption_at_rest = true
  eit : m.security_config.encryption_in_transit = true → m'.security_config.encryption_in_transit = true
  alog : m.security_config.audit_logging = true → m'.security_config.audit_logging = true
  iam : m.security_config.iam_policies = true → m'.security_config.iam_policies = true
  svcs : ServicesLe m.services m'.services

/-!
Concrete fixtures used by the counterexample and witness theorems.
-/

/-- Store holding one networking block at address 0 with every flag false,
as a caller-supplied manifest with an explicit networking dictionary. -/
def c1Store : Store :=
  { nets := fun _ => {}, secs := fun _ => {}, svcs := fun _ => {}, nextRef := 1 }

/-- Caller manifest whose networking entry is the shared block at
address 0. -/
def c1ManifestData : HManifest := { networkingRef := some 0 }

/-- A violation whose policy id matches no policy of the registry. -/
def c2Ghost : PolicyViolation :=
  { policy_id := "POL-NONEXISTENT-001"
    policy_name := "Ghost Policy"
    severity := .critical
    framework := .IBM_BASELINE
    description := ""
    detected_issue := "" }

/-- Minimal violation of a given severity, for score computations. -/
def mkTestViolation (sev : SeverityLevel) : PolicyViolation :=
  { policy_id := "POL-TEST-001"
    policy_name := "Test Policy"
    severity := sev
    framework := .IBM_BASELINE
    description := ""
    detected_issue := "" }

/-- Degenerate registry entry whose severity string is not a valid
severity: constructing its violation record faults, exercising the
exception boundary. -/
def badSeverityPolicy : GovernancePolicy :=
  { policy_id := "POL-BAD-001"
    policy_name := "Bad Severity"
    framework := "IBM_BASELINE"
    severity := "catastrophic"
    description := ""
    check_fn := fun _ => false
    correction_fn := fun m => m
    correction_description := "" }

/-- PHI manifest without VPC isolation. -/
def c6M : Manifest := { detected_sensitivity := some "PHI" }

/-- Manifest with a database service in us-south under GDPR. -/
def c7M : Manifest :=
  { applicable_frameworks := some ["GDPR"]
    services := [{ service_name := some "db"
                   role := some "database"
                   region := some "us-south" }] }

/-- PHI manifest under HIPAA and GDPR with an uncontrolled us-south
database, violating every selected policy. -/
def c10M : Manifest :=
  { detected_sensitivity := some "PHI"
    applicable_frameworks := some ["HIPAA", "GDPR"]
    services := [{ service_name := some "db"
                   role := some "database"
                   region := some "us-south" }] }

/-!
General lemmas about the pipeline functions.
-/

theorem foldl_append_filter (c : GovernancePolicy → Bool) :
    ∀ (l acc : List GovernancePolicy),
      l.foldl (fun r p => if c p then r ++ [p] else r) acc = acc ++ l.filter c := by
  intro l
  induction l with
  | nil => intro acc; simp
  | cons p ps ih =>
    intro acc
    by_cases h : c p = true
    · simp [List.foldl_cons, h, ih, List.filter_cons]
    · simp only [Bool.not_eq_true] at h
      simp [List.foldl_cons, h, ih, List.filter_cons]

theorem selectPolicies_eq_filter (kb : List GovernancePolicy) (frameworks : List String) :
    selectPolicies kb frameworks =
      kb.filter (fun p => ("IBM_BASELINE" :: frameworks).contains p.framework) := by
  unfold selectPolicies
  rw [foldl_append_filter]
  simp

theorem beq_string_decide (a b : String) : (a == b) = decide (a = b) := by
  by_cases h : a = b
  · subst h; simp
  · simp [h]

theorem correctionPass_length_le (policies : List GovernancePolicy) :
    ∀ (violations : List PolicyViolation) (m : Manifest),
      (correctionPass policies violations m).2.length ≤ violations.length := by
  intro violations
  induction violations with
  | nil => intro m; simp [correctionPass]
  | cons v vs ih =>
    intro m
    cases hf : policies.find? (fun p => p.policy_id == v.policy_id) with
    | some p =>
      simp only [correctionPass, hf, List.length_cons]
      exact Nat.succ_le_succ (ih (p.correction_fn m))
    | none =>
      simp only [correctionPass, hf, List.length_cons]
      exact Nat.le_succ_of_le (ih m)

theorem correctionPass_length_eq (policies : List GovernancePolicy) :
    ∀ (violations : List PolicyViolation) (m : Manifest),
      (∀ v ∈ violations,
        (policies.find? (fun p => p.policy_id == v.policy_id)).isSome) →
      (correctionPass policies violations m).2.length = violations.length := by
  intro violations
  induction violations with
  | nil => intro m _; simp [correctionPass]
  | cons v vs ih =>
    intro m hall
    cases hf : policies.find? (fun p => p.policy_id == v.policy_id) with
    | some p =>
      simp only [correctionPass, hf, List.length_cons]
      exact congrArg Nat.succ
        (ih (p.correction_fn m) (fun v' hv' => hall v' (List.mem_cons_of_mem _ hv')))
    | none =>
      have := hall v (List.mem_cons_self v vs)
      rw [hf] at this
      simp at this

/-- C4: for every requested framework list, the selector returns exactly
the registry policies whose framework is requested or is the baseline
framework, in registry declaration order (a filter of the registry), and
on the empty request it returns exactly the four baseline policies. -/
theorem selector_returns_registry_filter :
    (∀ frameworks : List String,
       get_policies_for_frameworks frameworks =
         POLICY_KNOWLEDGE_BASE.filter
           (fun p => frameworks.contains p.framework || p.framework == "IBM_BASELINE"))
    ∧ get_policies_for_frameworks [] = [polIBM001, polIBM002, polSEC001, polSEC002] := by
  constructor
  · intro frameworks
    unfold get_policies_for_frameworks
    rw [selectPolicies_eq_filter]
    apply List.filter_congr
    intro p _
    simp [List.contains_cons, Bool.or_comm, beq_string_decide]
  · rfl

/-- C2 amended: a violation during the correction pass whose policy id has
no match in the active policy set is skipped without raising and
contributes no correction; the resulting corrected list is strictly
shorter than the found list, which forces the final status FAILED with
score 40.  The call completes normally rather than erroring. -/
theorem unmatched_violation_skipped_demotes_to_failed
    (policies : List GovernancePolicy) (v : PolicyViolation)
    (vs : List PolicyViolation) (m : Manifest)
    (h : policies.find? (fun p => p.policy_id == v.policy_id) = none) :
    correctionPass policies (v :: vs) m = correctionPass policies vs m
    ∧ (correctionPass policies (v :: vs) m).2.length < (v :: vs).length
    ∧ finalStatusScore (v :: vs) (correctionPass policies (v :: vs) m).2 =
        (StageStatus.failed, 40) := by
  have hskip : correctionPass policies (v :: vs) m = correctionPass policies vs m := by
    simp only [correctionPass, h]
  have hlt : (correctionPass policies (v :: vs) m).2.length < (v :: vs).length := by
    rw [hskip]
    exact Nat.lt_succ_of_le (correctionPass_length_le policies vs m)
  refine ⟨hskip, hlt, ?_⟩
  have hne : ((correctionPass policies (v :: vs) m).2.length == (v :: vs).length) = false := by
    simp only [beq_eq_false_iff_ne]
    omega
  unfold finalStatusScore
  rw [hne]
  simp

/-- C2 counterexample: with the baseline policy set in force, a violation
carrying an unknown policy id is silently dropped by the correction pass;
the pass returns normally with the manifest untouched and no corrected
violation, instead of erroring or aborting the call. -/
theorem ghost_violation_silently_dropped :
    correctionPass (get_policies_for_frameworks []) [c2Ghost] {} = ({}, []) := by
  decide

/-- C2 witness: the amended statement evaluated on the ghost violation. -/
theorem unmatched_violation_witness :
    correctionPass (get_policies_for_frameworks []) [c2Ghost] {} =
        correctionPass (get_policies_for_frameworks []) [] {}
    ∧ (correctionPass (get_policies_for_frameworks []) [c2Ghost] {}).2.length < 1
    ∧ finalStatusScore [c2Ghost]
        (correctionPass (get_policies_for_frameworks []) [c2Ghost] {}).2 =
        (StageStatus.failed, 40) :=
  unmatched_violation_skipped_demotes_to_failed
    (get_policies_for_frameworks []) c2Ghost [] {} (by rfl)

/-- C3: the status and score state machine: no violations gives PASSED and
100; a fully corrected violation set gives CORRECTED with score
max(60, 100 - 8 criticals - 3 warnings); a corrected count short of the
found count gives FAILED and 40; info violations leave the score
unchanged; one corrected critical scores 92 and three criticals plus two
warnings score 70. -/
theorem status_score_state_machine :
    (∀ found correctedVs : List PolicyViolation,
       (found = [] → finalStatusScore found correctedVs = (StageStatus.passed, 100))
       ∧ (found ≠ [] → correctedVs.length = found.length →
            finalStatusScore found correctedVs =
              (StageStatus.correctedStatus,
               max 60 (100 - 8 * (countSeverity found SeverityLevel.critical : Int)
                           - 3 * (countSeverity found SeverityLevel.warning : Int))))
       ∧ (correctedVs.length < found.length →
            finalStatusScore found correctedVs = (StageStatus.failed, 40)))
    ∧ (∀ (found : List PolicyViolation) (v : PolicyViolation), v.severity = SeverityLevel.info →
         complianceScoreOf (v :: found) = complianceScoreOf found)
    ∧ finalStatusScore [mkTestViolation .critical] [mkTestViolation .critical] =
        (StageStatus.correctedStatus, 92)
    ∧ finalStatusScore
        [mkTestViolation .critical, mkTestViolation .critical, mkTestViolation .critical,
         mkTestViolation .warning, mkTestViolation .warning]
        [mkTestViolation .critical, mkTestViolation .critical, mkTestViolation .critical,
         mkTestViolation .warning, mkTestViolation .warning] =
        (StageStatus.correctedStatus, 70) := by
  refine ⟨?_, ?_, by decide, by decide⟩
  · intro found correctedVs
    refine ⟨?_, ?_, ?_⟩
    · intro h
      subst h
      simp [finalStatusScore]
    · intro hne hlen
      have hempty : found.isEmpty = false := by
        cases found with
        | nil => exact absurd rfl hne
        | cons a l => rfl
      simp [finalStatusScore, hempty, hlen, complianceScoreOf]
    · intro hlt
      have hempty : found.isEmpty = false := by
        cases found with
        | nil => simp at hlt
        | cons a l => rfl
      have hne : (correctedVs.length == found.length) = false := by
        simp [Nat.ne_of_lt hlt]
      simp [finalStatusScore, hempty, hne]
  · intro found v hv
    simp [complianceScoreOf, countSeverity, List.countP_cons, hv]

/-- C3 witness: the branch statements evaluated at concrete violation
lists. -/
theorem status_score_witness :
    finalStatusScore [] [] = (StageStatus.passed, 100)
    ∧ finalStatusScore [mkTestViolation .critical] [] = (StageStatus.failed, 40)
    ∧ complianceScoreOf (mkTestViolation .info :: [mkTestViolation .critical]) =
        complianceScoreOf [mkTestViolation .critical] := by
  refine ⟨(status_score_state_machine.1 [] []).1 rfl, ?_, ?_⟩
  · exact (status_score_state_machine.1 [mkTestViolation .critical] []).2.2 (by decide)
  · exact status_score_state_machine.2.1 [mkTestViolation .critical] (mkTestViolation .info) rfl

/-- C5: any fault of the body of the audit call is converted at the
outermost boundary into a FAILED stage result carrying the elapsed
duration and the error message; the call returns this result instead of
propagating the fault. -/
theorem fault_converted_at_outer_boundary
    (kb : List GovernancePolicy) (architect_result : ArchitectResult)
    (intent_result : IntentResult) (duration_ms : Nat) (e : String)
    (h : runBody kb architect_result intent_result = .error e) :
    runGuardrailWith kb architect_result intent_result duration_ms =
      { stage_id := 3
        stage_name := "Governance Guardrail"
        status := StageStatus.failed
        duration_ms := duration_ms
        result := none
        error := some e } := by
  unfold runGuardrailWith
  rw [h]

/-- C5 witness: a registry entry with an invalid severity string makes the
body fault, and the call returns the FAILED stage result with the error
message and the duration. -/
theorem fault_converted_witness :
    runGuardrailWith [badSeverityPolicy] {} {} 7 =
      { stage_id := 3
        stage_name := "Governance Guardrail"
        status := StageStatus.failed
        duration_ms := 7
        result := none
        error := some "catastrophic is not a valid SeverityLevel" } :=
  fault_converted_at_outer_boundary [badSeverityPolicy] {} {} 7
    "catastrophic is not a valid SeverityLevel" (by rfl)

/-- C6: on a PHI manifest without VPC isolation, the VPC correction sets
vpc_enabled, subnet_isolation and private_endpoints, and the VPC isolation
check passes on the corrected manifest. -/
theorem vpc_correction_sufficient (m : Manifest)
    (h1 : m.detected_sensitivity = some "PHI")
    (h2 : m.networking.vpc_enabled = false) :
    (correct_vpc_isolation m).networking.vpc_enabled = true
    ∧ (correct_vpc_isolation m).networking.subnet_isolation = true
    ∧ (correct_vpc_isolation m).networking.private_endpoints = true
    ∧ check_vpc_isolation (correct_vpc_isolation m) = true := by
  refine ⟨rfl, rfl, rfl, ?_⟩
  simp [check_vpc_isolation, correct_vpc_isolation]

/-- C6 witness: the VPC correction on the concrete PHI manifest. -/
theorem vpc_correction_witness :
    (correct_vpc_isolation c6M).networking.vpc_enabled = true
    ∧ (correct_vpc_isolation c6M).networking.subnet_isolation = true
    ∧ (correct_vpc_isolation c6M).networking.private_endpoints = true
    ∧ check_vpc_isolation (correct_vpc_isolation c6M) = true :=
  vpc_correction_sufficient c6M rfl rfl

/-- C7: on a manifest whose frameworks include GDPR and which has a
database service in us-south, the region correction moves every database
service to eu-gb and the region compliance check passes on the corrected
manifest. -/
theorem region_correction_sufficient (m : Manifest)
    (h1 : (m.applicable_frameworks.getD []).contains "GDPR" = true)
    (h2 : ∃ s ∈ m.services, s.role = some "database" ∧ s.region = some "us-south") :
    (∀ s ∈ (correct_region_gdpr m).services,
       s.role = some "database" → s.region = some "eu-gb")
    ∧ check_region_compliance (correct_region_gdpr m) = true := by
  constructor
  · intro s hs hrole
    rcases List.mem_map.mp hs with ⟨s0, _, rfl⟩
    by_cases hdb : s0.role = some "database"
    · simp [hdb]
    · have hb : (s0.role == some "database") = false := by simp [hdb]
      rw [hb] at hrole
      simp at hrole
      exact absurd hrole hdb
  · unfold check_region_compliance correct_region_gdpr
    simp only [h1, if_true]
    rw [List.all_map, List.all_eq_true]
    intro s0 _
    by_cases hdb : s0.role = some "database"
    · simp [Function.comp, hdb, euRegions]
    · have hb : (s0.role == some "database") = false := by simp [hdb]
      simp [Function.comp, hb]

/-- C7 witness: the region correction on the concrete GDPR manifest. -/
theorem region_correction_witness :
    (∀ s ∈ (correct_region_gdpr c7M).services,
       s.role = some "database" → s.region = some "eu-gb")
    ∧ check_region_compliance (correct_region_gdpr c7M) = true :=
  region_correction_sufficient c7M (by decide)
    ⟨{ service_name := some "db", role := some "database", region := some "us-south" },
     by decide, rfl, rfl⟩

/-- C8: the compliance score is antitone in the violation set: a sub-list
of violations never scores lower, and any fully corrected violation set
scores at least 60. -/
theorem score_monotone (V1 V2 : List PolicyViolation) (h : V1.Sublist V2) :
    complianceScoreOf V2 ≤ complianceScoreOf V1
    ∧ 60 ≤ complianceScoreOf V1
    ∧ 60 ≤ complianceScoreOf V2 := by
  have hc := h.countP_le (fun v => v.severity == SeverityLevel.critical)
  have hw := h.countP_le (fun v => v.severity == SeverityLevel.warning)
  refine ⟨?_, le_max_left _ _, le_max_left _ _⟩
  unfold complianceScoreOf countSeverity
  apply max_le_max (le_refl _)
  have hc' : (V1.countP (fun v => v.severity == SeverityLevel.critical) : Int) ≤
      (V2.countP (fun v => v.severity == SeverityLevel.critical) : Int) := Int.ofNat_le.mpr hc
  have hw' : (V1.countP (fun v => v.severity == SeverityLevel.warning) : Int) ≤
      (V2.countP (fun v => v.severity == SeverityLevel.warning) : Int) := Int.ofNat_le.mpr hw
  omega

/-- C8 witness: one critical violation against one critical plus one
warning. -/
theorem score_monotone_witness :
    complianceScoreOf [mkTestViolation .critical, mkTestViolation .warning] ≤
        complianceScoreOf [mkTestViolation .critical]
    ∧ 60 ≤ complianceScoreOf [mkTestViolation .critical]
    ∧ 60 ≤ complianceScoreOf [mkTestViolation .critical, mkTestViolation .warning] :=
  score_monotone [mkTestViolation .critical]
    [mkTestViolation .critical, mkTestViolation .warning] (by decide)

/-- C1: the shallow working copy shares the nested networking block with
the caller manifest, so the correction pass writes through it: on a PHI
manifest passed in with vpc_enabled false, the caller manifest reads back
vpc_enabled true after the run.  This contradicts the specified lifecycle,
in which the original input manifest is never mutated. -/
theorem shallow_copy_mutates_caller_manifest :
    (derefManifest c1ManifestData c1Store).networking.vpc_enabled = false
    ∧ (derefManifest c1ManifestData
        (hRunGuardrail c1ManifestData "PHI" ["HIPAA"] c1Store).2).networking.vpc_enabled
      = true := by
  decide

/-!
Lemmas about the strengthening order: reflexivity, transitivity, and the
behaviour of the service-list order under the service rewrites the
corrections perform.
-/

theorem serviceLe_refl (s : Service) : ServiceLe s s :=
  ⟨rfl, Or.inl rfl⟩

theorem serviceLe_trans {a b c : Service} (h1 : ServiceLe a b) (h2 : ServiceLe b c) :
    ServiceLe a c := by
  obtain ⟨hr1, hg1⟩ := h1
  obtain ⟨hr2, hg2⟩ := h2
  refine ⟨hr2.trans hr1, ?_⟩
  rcases hg2 with h | h
  · rw [h]; exact hg1
  · exact Or.inr h

theorem servicesLe_refl : ∀ ss : List Service, ServicesLe ss ss
  | [] => trivial
  | s :: ss => ⟨serviceLe_refl s, servicesLe_refl ss⟩

theorem servicesLe_trans {a b c : List Service}
    (h1 : ServicesLe a b) (h2 : ServicesLe b c) : ServicesLe a c := by
  induction a generalizing b c with
  | nil =>
    cases b with
    | nil =>
      cases c with
      | nil => trivial
      | cons _ _ => exact h2.elim
    | cons _ _ => exact h1.elim
  | cons s a ih =>
    cases b with
    | nil => exact h1.elim
    | cons s2 b =>
      cases c with
      | nil => exact h2.elim
      | cons s3 c =>
        exact ⟨serviceLe_trans h1.1 h2.1, ih h1.2 h2.2⟩

theorem servicesLe_map (f : Service → Service) (hf : ∀ s, ServiceLe s (f s)) :
    ∀ ss : List Service, ServicesLe ss (ss.map f)
  | [] => trivial
  | s :: ss => ⟨hf s, servicesLe_map f hf ss⟩

theorem servicesLe_any_db {a b : List Service} (h : ServicesLe a b) :
    (b.any fun s => s.role == some "database") =
      (a.any fun s => s.role == some "database") := by
  induction a generalizing b with
  | nil =>
    cases b with
    | nil => rfl
    | cons _ _ => exact h.elim
  | cons s a ih =>
    cases b with
    | nil => exact h.elim
    | cons s2 b =>
      obtain ⟨⟨hrole, _⟩, ht⟩ := h
      simp [List.any_cons, hrole, ih ht]

theorem manifestLe_refl (m : Manifest) : ManifestLe m m :=
  ⟨rfl, rfl, id, id, id, id, id, id, id, servicesLe_refl m.services⟩

theorem manifestLe_trans {a b c : Manifest}
    (h1 : ManifestLe a b) (h2 : ManifestLe b c) : ManifestLe a c :=
  ⟨h2.sens.trans h1.sens, h2.fws.trans h1.fws,
   fun h => h2.vpc (h1.vpc h), fun h => h2.subnet (h1.subnet h),
   fun h => h2.pend (h1.pend h), fun h => h2.ear (h1.ear h),
   fun h => h2.eit (h1.eit h), fun h => h2.alog (h1.alog h),
   fun h => h2.iam (h1.iam h), servicesLe_trans h1.svcs h2.svcs⟩

/-!
Boolean helpers for the guarded checks of the registry, which all have the
shape `if c && !b then false else true`.
-/

theorem guard_flag_true {c b : Bool}
    (h : (if c && !b then false else true) = true) (hc : c = true) : b = true := by
  cases b
  · subst hc; simp at h
  · rfl

theorem guard_flag_result {c b : Bool} (h : c = false ∨ b = true) :
    (if c && !b then false else true) = true := by
  rcases h with h | h <;> simp [h]

theorem reAudit_eq_nil_of_all (policies : List GovernancePolicy) (m : Manifest)
    (h : ∀ p ∈ policies, p.check_fn m = true) : reAudit policies m = [] := by
  induction policies with
  | nil => rfl
  | cons p ps ih =>
    have hp := h p (List.mem_cons_self p ps)
    simp only [reAudit, hp, if_true]
    exact ih fun q hq => h q (List.mem_cons_of_mem _ hq)

/-!
Monotonicity of each registry check along the strengthening order.
-/

theorem check_vpc_isolation_mono {m m' : Manifest} (hle : ManifestLe m m')
    (h : check_vpc_isolation m = true) : check_vpc_isolation m' = true := by
  unfold check_vpc_isolation at h ⊢
  rw [hle.sens]
  apply guard_flag_result
  cases hc : (m.detected_sensitivity.getD "public" == "PHI"
      || m.detected_sensitivity.getD "public" == "PII")
  · exact Or.inl rfl
  · exact Or.inr (hle.vpc (guard_flag_true h hc))

theorem check_encryption_at_rest_mono {m m' : Manifest} (hle : ManifestLe m m')
    (h : check_encryption_at_rest m = true) : check_encryption_at_rest m' = true := by
  unfold check_encryption_at_rest at h ⊢
  rw [servicesLe_any_db hle.svcs]
  apply guard_flag_result
  cases hc : (m.services.any fun s => s.role == some "database")
  · exact Or.inl rfl
  · exact Or.inr (hle.ear (guard_flag_true h hc))

theorem check_encryption_in_transit_mono {m m' : Manifest} (hle : ManifestLe m m')
    (h : check_encryption_in_transit m = true) : check_encryption_in_transit m' = true := by
  unfold check_encryption_in_transit at h ⊢
  cases hb : m.security_config.encryption_in_transit
  · rw [hb] at h; simp at h
  · rw [hle.eit hb]; simp

theorem check_audit_logging_for_phi_mono {m m' : Manifest} (hle : ManifestLe m m')
    (h : check_audit_logging_for_phi m = true) : check_audit_logging_for_phi m' = true := by
  unfold check_audit_logging_for_phi at h ⊢
  rw [hle.sens]
  apply guard_flag_result
  cases hc : (m.detected_sensitivity.getD "public" == "PHI")
  · exact Or.inl rfl
  · exact Or.inr (hle.alog (guard_flag_true h hc))

theorem check_private_endpoints_mono {m m' : Manifest} (hle : ManifestLe m m')
    (h : check_private_endpoints m = true) : check_private_endpoints m' = true := by
  unfold check_private_endpoints at h ⊢
  rw [hle.sens]
  apply guard_flag_result
  cases hc : (m.detected_sensitivity.getD "public" == "PHI"
      || m.detected_sensitivity.getD "public" == "PCI")
  · exact Or.inl rfl
  · exact Or.inr (hle.pend (guard_flag_true h hc))

theorem check_no_public_api_mono {m m' : Manifest} (hle : ManifestLe m m')
    (h : check_no_public_api_for_sensitive_data m = true) :
    check_no_public_api_for_sensitive_data m' = true := by
  unfold check_no_public_api_for_sensitive_data at h ⊢
  rw [hle.sens]
  cases hc : (m.detected_sensitivity.getD "public" == "PHI"
      || m.detected_sensitivity.getD "public" == "PII"
      || m.detected_sensitivity.getD "public" == "PCI")
  · simp
  · rw [hc] at h
    rw [if_pos rfl] at h
    rw [if_pos rfl]
    simp only [Bool.and_eq_true] at h
    simp [hle.vpc h.1, hle.subnet h.2]

theorem check_iam_policies_present_mono {m m' : Manifest} (hle : ManifestLe m m')
    (h : check_iam_policies_present m = true) : check_iam_policies_present m' = true := by
  unfold check_iam_policies_present at h ⊢
  rw [hle.sens]
  apply guard_flag_result
  cases hc : (m.detected_sensitivity.getD "public" == "PHI"
      || m.detected_sensitivity.getD "public" == "PCI")
  · exact Or.inl rfl
  · exact Or.inr (hle.iam (guard_flag_true h hc))

theorem servicesLe_all_region {a b : List Service} (h : ServicesLe a b)
    (ha : a.all (fun svc =>
            !(svc.role == some "database") || euRegions.contains (svc.region.getD ""))
          = true) :
    b.all (fun svc =>
        !(svc.role == some "database") || euRegions.contains (svc.region.getD ""))
      = true := by
  induction a generalizing b with
  | nil =>
    cases b with
    | nil => rfl
    | cons _ _ => exact h.elim
  | cons s a ih =>
    cases b with
    | nil => exact h.elim
    | cons s2 b =>
      obtain ⟨⟨hrole, hreg⟩, ht⟩ := h
      simp only [List.all_cons, Bool.and_eq_true] at ha ⊢
      refine ⟨?_, ih ht ha.2⟩
      rw [hrole]
      cases hdb : (s.role == some "database")
      · simp
      · have hc := ha.1
        rw [hdb] at hc
        simp only [Bool.not_true, Bool.false_or] at hc
        rcases hreg with hr | hr
        · rw [hr]
          simpa using hc
        · simp [hr, euRegions]

theorem check_region_compliance_mono {m m' : Manifest} (hle : ManifestLe m m')
    (h : check_region_compliance m = true) : check_region_compliance m' = true := by
  unfold check_region_compliance at h ⊢
  rw [hle.fws]
  cases hg : ((m.applicable_frameworks.getD []).contains "GDPR")
  · simp
  · rw [hg] at h
    simp only [if_pos rfl] at h ⊢
    exact servicesLe_all_region hle.svcs h

/-!
Each registry correction strengthens the manifest along the order.
-/

theorem serviceLe_plan_update (s : Service) :
    ServiceLe s (if s.role == some "database"
                 then { s with plan := some "dedicated" } else s) := by
  cases hdb : (s.role == some "database")
  · rw [if_neg (by simp)]
    exact serviceLe_refl s
  · rw [if_pos rfl]
    exact ⟨rfl, Or.inl rfl⟩

theorem serviceLe_region_update (s : Service) :
    ServiceLe s (if s.role == some "database"
                 then { s with region := some "eu-gb" } else s) := by
  cases hdb : (s.role == some "database")
  · rw [if_neg (by simp)]
    exact serviceLe_refl s
  · rw [if_pos rfl]
    exact ⟨rfl, Or.inr rfl⟩

theorem correct_vpc_isolation_extensive (m : Manifest) :
    ManifestLe m (correct_vpc_isolation m) :=
  ⟨rfl, rfl, fun _ => rfl, fun _ => rfl, fun _ => rfl, id, id, id, id,
   servicesLe_refl m.services⟩

theorem correct_encryption_at_rest_extensive (m : Manifest) :
    ManifestLe m (correct_encryption_at_rest m) := by
  unfold correct_encryption_at_rest
  cases h : (m.detected_sensitivity == some "PHI")
  · rw [if_neg (by simp)]
    exact ⟨rfl, rfl, id, id, id, fun _ => rfl, id, id, id, servicesLe_refl m.services⟩
  · rw [if_pos rfl]
    exact ⟨rfl, rfl, id, id, id, fun _ => rfl, id, id, id,
           servicesLe_map _ serviceLe_plan_update m.services⟩

theorem correct_encryption_in_transit_extensive (m : Manifest) :
    ManifestLe m (correct_encryption_in_transit m) :=
  ⟨rfl, rfl, id, id, id, id, fun _ => rfl, id, id, servicesLe_refl m.services⟩

theorem correct_audit_logging_extensive (m : Manifest) :
    ManifestLe m (correct_audit_logging m) :=
  ⟨rfl, rfl, id, id, id, id, id, fun _ => rfl, id, servicesLe_refl m.services⟩

theorem correct_private_endpoints_extensive (m : Manifest) :
    ManifestLe m (correct_private_endpoints m) :=
  ⟨rfl, rfl, id, id, fun _ => rfl, id, id, id, id, servicesLe_refl m.services⟩

theorem correct_public_api_exposure_extensive (m : Manifest) :
    ManifestLe m (correct_public_api_exposure m) :=
  ⟨rfl, rfl, fun _ => rfl, fun _ => rfl, fun _ => rfl, id, id, id, id,
   servicesLe_refl m.services⟩

theorem correct_iam_policies_extensive (m : Manifest) :
    ManifestLe m (correct_iam_policies m) :=
  ⟨rfl, rfl, id, id, id, id, id, id, fun _ => rfl, servicesLe_refl m.services⟩

theorem correct_region_gdpr_extensive (m : Manifest) :
    ManifestLe m (correct_region_gdpr m) :=
  ⟨rfl, rfl, id, id, id, id, id, id, id,
   servicesLe_map _ serviceLe_region_update m.services⟩

/-!
Each registry correction makes its own check pass.
-/

theorem check_vpc_of_correct (m : Manifest) :
    check_vpc_isolation (correct_vpc_isolation m) = true := by
  simp [check_vpc_isolation, correct_vpc_isolation]

theorem check_ear_of_correct (m : Manifest) :
    check_encryption_at_rest (correct_encryption_at_rest m) = true := by
  unfold correct_encryption_at_rest
  cases h : (m.detected_sensitivity == some "PHI")
  · rw [if_neg (by simp)]
    simp [check_encryption_at_rest]
  · rw [if_pos rfl]
    simp [check_encryption_at_rest]

theorem check_eit_of_correct (m : Manifest) :
    check_encryption_in_transit (correct_encryption_in_transit m) = true := by
  simp [check_encryption_in_transit, correct_encryption_in_transit]

theorem check_alog_of_correct (m : Manifest) :
    check_audit_logging_for_phi (correct_audit_logging m) = true := by
  simp [check_audit_logging_for_phi, correct_audit_logging]

theorem check_pend_of_correct (m : Manifest) :
    check_private_endpoints (correct_private_endpoints m) = true := by
  simp [check_private_endpoints, correct_private_endpoints]

theorem check_papi_of_correct (m : Manifest) :
    check_no_public_api_for_sensitive_data (correct_public_api_exposure m) = true := by
  simp [check_no_public_api_for_sensitive_data, correct_public_api_exposure]

theorem check_iam_of_correct (m : Manifest) :
    check_iam_policies_present (correct_iam_policies m) = true := by
  simp [check_iam_policies_present, correct_iam_policies]

theorem all_db_eu_after_region_correct (m : Manifest) :
    (correct_region_gdpr m).services.all
      (fun svc =>
        !(svc.role == some "database") || euRegions.contains (svc.region.getD ""))
      = true := by
  show (m.services.map (fun svc =>
          if svc.role == some "database" then { svc with region := some "eu-gb" }
          else svc)).all
        (fun svc =>
          !(svc.role == some "database") || euRegions.contains (svc.region.getD ""))
      = true
  rw [List.all_map, List.all_eq_true]
  intro s0 _
  by_cases hdb : s0.role = some "database"
  · simp [Function.comp, hdb, euRegions]
  · have hb : (s0.role == some "database") = false := by simp [hdb]
    simp [Function.comp, hb]

theorem check_region_of_correct (m : Manifest) :
    check_region_compliance (correct_region_gdpr m) = true := by
  unfold check_region_compliance
  by_cases hg : (((correct_region_gdpr m).applicable_frameworks.getD []).contains "GDPR")
      = true
  · rw [if_pos hg]
    exact all_db_eu_after_region_correct m
  · rw [if_neg hg]

/-- Every registry policy strengthens along the order, satisfies its own
check after its correction, and has a check monotone along the order. -/
theorem registry_policy_props (p : GovernancePolicy) (hp : p ∈ POLICY_KNOWLEDGE_BASE) :
    (∀ m, ManifestLe m (p.correction_fn m))
    ∧ (∀ m, p.check_fn (p.correction_fn m) = true)
    ∧ (∀ m m', ManifestLe m m' → p.check_fn m = true → p.check_fn m' = true) := by
  simp only [POLICY_KNOWLEDGE_BASE, List.mem_cons, List.not_mem_nil, or_false] at hp
  rcases hp with rfl | rfl | rfl | rfl | rfl | rfl | rfl | rfl
  · exact ⟨correct_vpc_isolation_extensive, check_vpc_of_correct,
           fun m m' hle h => check_vpc_isolation_mono hle h⟩
  · exact ⟨correct_encryption_at_rest_extensive, check_ear_of_correct,
           fun m m' hle h => check_encryption_at_rest_mono hle h⟩
  · exact ⟨correct_audit_logging_extensive, check_alog_of_correct,
           fun m m' hle h => check_audit_logging_for_phi_mono hle h⟩
  · exact ⟨correct_encryption_in_transit_extensive, check_eit_of_correct,
           fun m m' hle h => check_encryption_in_transit_mono hle h⟩
  · exact ⟨correct_private_endpoints_extensive, check_pend_of_correct,
           fun m m' hle h => check_private_endpoints_mono hle h⟩
  · exact ⟨correct_public_api_exposure_extensive, check_papi_of_correct,
           fun m m' hle h => check_no_public_api_mono hle h⟩
  · exact ⟨correct_iam_policies_extensive, check_iam_of_correct,
           fun m m' hle h => check_iam_policies_present_mono hle h⟩
  · exact ⟨correct_region_gdpr_extensive, check_region_of_correct,
           fun m m' hle h => check_region_compliance_mono hle h⟩

/-- Every registry policy has a valid severity and framework string, so its
violation record is constructed without a fault and carries the policy
id. -/
theorem registry_mkViolation (p : GovernancePolicy) (hp : p ∈ POLICY_KNOWLEDGE_BASE) :
    ∃ v, mkViolation p = Except.ok v ∧ v.policy_id = p.policy_id := by
  simp only [POLICY_KNOWLEDGE_BASE, List.mem_cons, List.not_mem_nil, or_false] at hp
  rcases hp with rfl | rfl | rfl | rfl | rfl | rfl | rfl | rfl
  all_goals exact ⟨_, rfl, rfl⟩

/-- Registry policy ids are pairwise distinct. -/
theorem registry_ids_nodup :
    (POLICY_KNOWLEDGE_BASE.map (fun p => p.policy_id)).Nodup := by
  decide

/-- Characterization of pass 1 when every violation record can be built:
it succeeds, its violations carry ids of failing policies of the list, and
every failing policy of the list is covered by a violation. -/
theorem auditPass_spec (policies : List GovernancePolicy)
    (hok : ∀ p ∈ policies, ∃ v, mkViolation p = Except.ok v ∧ v.policy_id = p.policy_id)
    (m : Manifest) :
    ∃ vs, auditPass policies m = .ok vs
      ∧ (∀ v ∈ vs, ∃ p ∈ policies, v.policy_id = p.policy_id ∧ p.check_fn m = false)
      ∧ (∀ p ∈ policies, p.check_fn m = false → ∃ v ∈ vs, v.policy_id = p.policy_id) := by
  induction policies with
  | nil => exact ⟨[], rfl, by simp, by simp⟩
  | cons p ps ih =>
    obtain ⟨vs, hvs, hmem, hcov⟩ :=
      ih (fun q hq => hok q (List.mem_cons_of_mem _ hq))
    cases hc : p.check_fn m with
    | true =>
      have heq : auditPass (p :: ps) m = auditPass ps m := by
        simp [auditPass, hc]
      refine ⟨vs, heq.trans hvs, ?_, ?_⟩
      · intro v hv
        obtain ⟨q, hq, hid, hcq⟩ := hmem v hv
        exact ⟨q, List.mem_cons_of_mem _ hq, hid, hcq⟩
      · intro q hq hcq
        rcases List.mem_cons.mp hq with rfl | hq'
        · rw [hc] at hcq; cases hcq
        · exact hcov q hq' hcq
    | false =>
      obtain ⟨vp, hvp, hvpid⟩ := hok p (List.mem_cons_self p ps)
      have heq : auditPass (p :: ps) m = .ok (vp :: vs) := by
        simp [auditPass, hc, hvp, hvs, Bind.bind, Except.bind]
      refine ⟨vp :: vs, heq, ?_, ?_⟩
      · intro v hv
        rcases List.mem_cons.mp hv with rfl | hv'
        · exact ⟨p, List.mem_cons_self p ps, hvpid, hc⟩
        · obtain ⟨q, hq, hid, hcq⟩ := hmem v hv'
          exact ⟨q, List.mem_cons_of_mem _ hq, hid, hcq⟩
      · intro q hq hcq
        rcases List.mem_cons.mp hq with rfl | hq'
        · exact ⟨vp, List.mem_cons_self vp vs, hvpid⟩
        · obtain ⟨v, hv, hid⟩ := hcov q hq' hcq
          exact ⟨v, List.mem_cons_of_mem _ hv, hid⟩

/-- In a policy list with pairwise distinct ids, looking a member policy
up by its own id finds exactly that policy. -/
theorem find_by_id_self (policies : List GovernancePolicy)
    (hnd : (policies.map (fun p => p.policy_id)).Nodup)
    (p : GovernancePolicy) (hp : p ∈ policies) :
    policies.find? (fun q => q.policy_id == p.policy_id) = some p := by
  induction policies with
  | nil => cases hp
  | cons q ps ih =>
    simp only [List.map_cons, List.nodup_cons] at hnd
    rcases List.mem_cons.mp hp with rfl | hp'
    · exact List.find?_cons_of_pos _ (by simp)
    · have hne : (q.policy_id == p.policy_id) = false := by
        have hmemid : p.policy_id ∈ ps.map (fun r => r.policy_id) :=
          List.mem_map_of_mem _ hp'
        simp only [beq_eq_false_iff_ne]
        exact fun hEq => hnd.1 (hEq ▸ hmemid)
      rw [List.find?_cons_of_neg _ (by simp [hne])]
      exact ih hnd.2 hp'

/-- Soundness of the correction pass over registry policies: the working
manifest only strengthens, and every violation whose id resolves to a
policy ends with that policy's check passing on the final manifest. -/
theorem correctionPass_sound (policies : List GovernancePolicy)
    (hsub : ∀ p ∈ policies, p ∈ POLICY_KNOWLEDGE_BASE) :
    ∀ (violations : List PolicyViolation) (m : Manifest),
      ManifestLe m (correctionPass policies violations m).1
      ∧ (∀ v ∈ violations, ∀ p,
          policies.find? (fun q => q.policy_id == v.policy_id) = some p →
          p.check_fn (correctionPass policies violations m).1 = true) := by
  intro violations
  induction violations with
  | nil =>
    intro m
    exact ⟨manifestLe_refl m, fun v hv => absurd hv (List.not_mem_nil v)⟩
  | cons v vs ih =>
    intro m
    cases hf : policies.find? (fun q => q.policy_id == v.policy_id) with
    | none =>
      have heq : correctionPass policies (v :: vs) m = correctionPass policies vs m := by
        simp only [correctionPass, hf]
      obtain ⟨hle, hall⟩ := ih m
      rw [heq]
      refine ⟨hle, ?_⟩
      intro v' hv' p hp
      rcases List.mem_cons.mp hv' with rfl | hv'
      · rw [hf] at hp; cases hp
      · exact hall v' hv' p hp
    | some p =>
      have hpmem : p ∈ policies := List.mem_of_find?_eq_some hf
      have hreg := registry_policy_props p (hsub p hpmem)
      have heq : correctionPass policies (v :: vs) m =
          ((correctionPass policies vs (p.correction_fn m)).1,
           { v with auto_correction := some p.correction_description } ::
             (correctionPass policies vs (p.correction_fn m)).2) := by
        simp only [correctionPass, hf]
      obtain ⟨hle, hall⟩ := ih (p.correction_fn m)
      rw [heq]
      constructor
      · exact manifestLe_trans (hreg.1 m) hle
      · intro v' hv' q hq
        rcases List.mem_cons.mp hv' with rfl | hv'
        · rw [hf] at hq
          injection hq with hq
          subst hq
          exact hreg.2.2 _ _ hle (hreg.2.1 m)
        · exact hall v' hv' q hq

/-- C10: for every manifest and every policy set selected from the
registry, once the correction pass has applied the corrections for the
pass-1 violations, the pass-2 re-audit finds no remaining violations. -/
theorem reaudit_clean_after_corrections (m : Manifest) (frameworks : List String)
    (found : List PolicyViolation)
    (h : auditPass (get_policies_for_frameworks frameworks) m = .ok found) :
    reAudit (get_policies_for_frameworks frameworks)
      ((correctionPass (get_policies_for_frameworks frameworks) found m).1) = [] := by
  have hfilter : get_policies_for_frameworks frameworks =
      POLICY_KNOWLEDGE_BASE.filter
        (fun p => ("IBM_BASELINE" :: frameworks).contains p.framework) := by
    unfold get_policies_for_frameworks
    exact selectPolicies_eq_filter _ _
  have hsub : ∀ p ∈ get_policies_for_frameworks frameworks, p ∈ POLICY_KNOWLEDGE_BASE := by
    intro p hp
    rw [hfilter] at hp
    exact List.mem_of_mem_filter hp
  have hnd : ((get_policies_for_frameworks frameworks).map (fun p => p.policy_id)).Nodup := by
    have hsl : ((get_policies_for_frameworks frameworks).map (fun p => p.policy_id)).Sublist
        (POLICY_KNOWLEDGE_BASE.map (fun p => p.policy_id)) := by
      rw [hfilter]
      exact (List.filter_sublist _).map _
    exact registry_ids_nodup.sublist hsl
  obtain ⟨vs, hvs, hmem, hcov⟩ :=
    auditPass_spec (get_policies_for_frameworks frameworks)
      (fun p hp => registry_mkViolation p (hsub p hp)) m
  rw [h] at hvs
  injection hvs with hvs
  subst hvs
  obtain ⟨hle, hall⟩ :=
    correctionPass_sound (get_policies_for_frameworks frameworks) hsub found m
  apply reAudit_eq_nil_of_all
  intro q hq
  cases hcq : q.check_fn m with
  | true =>
    exact (registry_policy_props q (hsub q hq)).2.2 _ _ hle hcq
  | false =>
    obtain ⟨v, hv, hid⟩ := hcov q hq hcq
    have hfind : (get_policies_for_frameworks frameworks).find?
        (fun r => r.policy_id == v.policy_id) = some q := by
      rw [hid]
      exact find_by_id_self _ hnd q hq
    exact hall v hv q hfind

theorem finalStatusScore_of_len_eq (found correctedVs : List PolicyViolation)
    (h : correctedVs.length = found.length) :
    ((finalStatusScore found correctedVs).1 = StageStatus.passed
      ∨ (finalStatusScore found correctedVs).1 = StageStatus.correctedStatus)
    ∧ 60 ≤ (finalStatusScore found correctedVs).2 := by
  unfold finalStatusScore
  by_cases he : found.isEmpty = true
  · rw [if_pos he]
    exact ⟨Or.inl rfl, by norm_num⟩
  · rw [if_neg he, if_pos (by simp [h])]
    exact ⟨Or.inr rfl, le_max_left _ _⟩

/-- When pass 1 succeeds, the body returns the report assembled from the
pass-1 violations and the correction pass. -/
theorem runBody_eq_ok (kb : List GovernancePolicy) (a : ArchitectResult)
    (i : IntentResult) (vs : List PolicyViolation)
    (h : auditPass (selectPolicies kb (i.applicable_frameworks.getD ["IBM_BASELINE"]))
          (attachContext (a.manifest.getD {}) (i.detected_sensitivity.getD "public")
            (i.applicable_frameworks.getD ["IBM_BASELINE"])) = .ok vs) :
    runBody kb a i = .ok
      ((finalStatusScore vs
          (correctionPass (selectPolicies kb (i.applicable_frameworks.getD ["IBM_BASELINE"]))
            vs
            (attachContext (a.manifest.getD {}) (i.detected_sensitivity.getD "public")
              (i.applicable_frameworks.getD ["IBM_BASELINE"]))).2).1,
       { status := (finalStatusScore vs
            (correctionPass (selectPolicies kb (i.applicable_frameworks.getD ["IBM_BASELINE"]))
              vs
              (attachContext (a.manifest.getD {}) (i.detected_sensitivity.getD "public")
                (i.applicable_frameworks.getD ["IBM_BASELINE"]))).2).1
         violations_found := vs
         violations_corrected :=
           (correctionPass (selectPolicies kb (i.applicable_frameworks.getD ["IBM_BASELINE"]))
             vs
             (attachContext (a.manifest.getD {}) (i.detected_sensitivity.getD "public")
               (i.applicable_frameworks.getD ["IBM_BASELINE"]))).2
         final_compliance_score := (finalStatusScore vs
            (correctionPass (selectPolicies kb (i.applicable_frameworks.getD ["IBM_BASELINE"]))
              vs
              (attachContext (a.manifest.getD {}) (i.detected_sensitivity.getD "public")
                (i.applicable_frameworks.getD ["IBM_BASELINE"]))).2).2
         applicable_frameworks :=
           (i.applicable_frameworks.getD ["IBM_BASELINE"]).filterMap
             (fun f => (frameworkOfString f).toOption)
         corrected_manifest := assembleManifest (a.manifest.getD {})
           (correctionPass (selectPolicies kb (i.applicable_frameworks.getD ["IBM_BASELINE"]))
             vs
             (attachContext (a.manifest.getD {}) (i.detected_sensitivity.getD "public")
               (i.applicable_frameworks.getD ["IBM_BASELINE"]))).1
         model_used := MODEL_INSTRUCT
         tokens_used :=
           (selectPolicies kb (i.applicable_frameworks.getD ["IBM_BASELINE"])).length * 50 }) := by
  simp only [runBody]
  rw [h]
  rfl

/-- C9: on every input the body of the stage-3 run completes without a
fault, every pass-1 violation resolves to a selected policy, so the
corrected list has the length of the found list, the returned status is
PASSED or CORRECTED (never FAILED), and the score is at least 60, so a
score of 40 is unreachable on the non-exception path. -/
theorem non_exception_path_invariants (a : ArchitectResult) (i : IntentResult)
    (d : Nat) :
    ∃ st rep,
      runBody POLICY_KNOWLEDGE_BASE a i = .ok (st, rep)
      ∧ run_governance_guardrail a i d =
          { stage_id := 3
            stage_name := "Governance Guardrail"
            status := st
            duration_ms := d
            result := some rep
            error := none }
      ∧ rep.violations_corrected.length = rep.violations_found.length
      ∧ (∀ v ∈ rep.violations_found,
           ∃ p ∈ get_policies_for_frameworks (i.applicable_frameworks.getD ["IBM_BASELINE"]),
             v.policy_id = p.policy_id)
      ∧ (st = StageStatus.passed ∨ st = StageStatus.correctedStatus)
      ∧ 60 ≤ rep.final_compliance_score
      ∧ rep.final_compliance_score ≠ 40 := by
  have hsub : ∀ p ∈ selectPolicies POLICY_KNOWLEDGE_BASE
      (i.applicable_frameworks.getD ["IBM_BASELINE"]), p ∈ POLICY_KNOWLEDGE_BASE := by
    intro p hp
    rw [selectPolicies_eq_filter] at hp
    exact List.mem_of_mem_filter hp
  obtain ⟨vs, hvs, hmem, _⟩ :=
    auditPass_spec
      (selectPolicies POLICY_KNOWLEDGE_BASE (i.applicable_frameworks.getD ["IBM_BASELINE"]))
      (fun p hp => registry_mkViolation p (hsub p hp))
      (attachContext (a.manifest.getD {}) (i.detected_sensitivity.getD "public")
        (i.applicable_frameworks.getD ["IBM_BASELINE"]))
  have hmatch : ∀ v ∈ vs,
      ((selectPolicies POLICY_KNOWLEDGE_BASE
          (i.applicable_frameworks.getD ["IBM_BASELINE"])).find?
        (fun q => q.policy_id == v.policy_id)).isSome := by
    intro v hv
    obtain ⟨p, hp, hid⟩ := hmem v hv
    exact List.find?_isSome.mpr ⟨p, hp, by simp [hid]⟩
  have hlen := correctionPass_length_eq
    (selectPolicies POLICY_KNOWLEDGE_BASE (i.applicable_frameworks.getD ["IBM_BASELINE"]))
    vs
    (attachContext (a.manifest.getD {}) (i.detected_sensitivity.getD "public")
      (i.applicable_frameworks.getD ["IBM_BASELINE"]))
    hmatch
  have hbody := runBody_eq_ok POLICY_KNOWLEDGE_BASE a i vs hvs
  have hfs := finalStatusScore_of_len_eq vs
    ((correctionPass
        (selectPolicies POLICY_KNOWLEDGE_BASE (i.applicable_frameworks.getD ["IBM_BASELINE"]))
        vs
        (attachContext (a.manifest.getD {}) (i.detected_sensitivity.getD "public")
          (i.applicable_frameworks.getD ["IBM_BASELINE"]))).2)
    hlen
  refine ⟨_, _, hbody, ?_, hlen, ?_, hfs.1, hfs.2, ?_⟩
  · unfold run_governance_guardrail runGuardrailWith
    rw [hbody]
  · intro v hv
    obtain ⟨p, hp, hid, _⟩ := hmem v hv
    exact ⟨p, hp, hid⟩
  · have h60 := hfs.2
    dsimp only
    omega

/-- C10 witness: the fully violating PHI/GDPR manifest is audited, all
corrections applied, and the re-audit is clean. -/
theorem reaudit_clean_witness :
    reAudit (get_policies_for_frameworks ["HIPAA", "GDPR"])
      ((correctionPass (get_policies_for_frameworks ["HIPAA", "GDPR"])
          ((auditPass (get_policies_for_frameworks ["HIPAA", "GDPR"]) c10M).toOption.getD [])
          c10M).1) = [] :=
  reaudit_clean_after_corrections c10M ["HIPAA", "GDPR"] _ (by rfl)

end TrustBuild
